import Mathlib

/-!
Shallow embedding of the invitation-and-linking subsystem of the quiz
platform: invitation tokens (routers/invite.py), recruiter-code linking
(routers/recruiter_code.py, services/user_service.py), assessment
start and the student assessment list (routers/user_assessment.py), and
the direct-assignment script (create_student_assessment.py).

The relational store is modelled as lists of rows; timestamps are
natural numbers; every operation that performs a database commit takes a
`commitOk : Bool` flag: a successful commit makes all pending writes of
the request visible at once, a failed commit leaves the store exactly as
it was (the transaction is rolled back, which is what SQLAlchemy does on
a failed commit and what the except branches of the source also request
explicitly via db.rollback()).
-/

namespace QuizApp

/-- Row of the invite_tokens table (models/invite_token.py). -/
structure InviteToken where
  token : String
  assessment_id : Nat
  student_email : String
  used : Bool
  expires_at : Nat
  deriving Repr, DecidableEq

/-- Assessment status enumeration.
Modelled from the spec: models/user_assessment.py is not in the sources;
the spec gives the enum {INVITED, PENDING, STARTED, COMPLETED}, and
routers/user_assessment.py compares statuses against the literal string
"Completed", fixing the .value strings as the capitalised names. -/
inductive AssessmentStatus where
  | INVITED
  | PENDING
  | STARTED
  | COMPLETED
  deriving Repr, DecidableEq

/-- The .value string of the status enum, as used by get_my_assessments. -/
def AssessmentStatus.value : AssessmentStatus → String
  | .INVITED => "Invited"
  | .PENDING => "Pending"
  | .STARTED => "Started"
  | .COMPLETED => "Completed"

/-- Row of the user_assessments table (the Linkage).
Modelled from the spec: models/user_assessment.py is not in the sources;
the spec data model gives {user_id, assessment_id, recruiter_id:
nullable, status, score: nullable, start_time, end_time}, and the code
of routers/invite.py, routers/user_assessment.py and
services/user_service.py constructs rows with exactly these columns plus
student_email (nullable: start_assessment does not set it). -/
structure UserAssessment where
  user_id : Nat
  recruiter_id : Option Nat
  assessment_id : Nat
  student_email : Option String
  status : AssessmentStatus
  score : Option Nat
  start_time : Option Nat
  end_time : Option Nat
  deriving Repr, DecidableEq

/-- Row of the assessments table.
Modelled from the spec: models/assessment.py is not in the sources; the
code reads id, created_by_user_id, name, description, duration and the
assessment_questions relation (kept here as the list of question ids). -/
structure Assessment where
  id : Nat
  created_by_user_id : Nat
  name : String
  description : String
  duration : Nat
  question_ids : List Nat
  deriving Repr, DecidableEq

/-- Row of the questions table.
Modelled from the spec: models/question.py is not in the sources; the
code reads id, question_text and marks. -/
structure Question where
  id : Nat
  question_text : String
  marks : Nat
  deriving Repr, DecidableEq

/-- Row of the users table.
Modelled from the spec: models/user.py is not in the sources; the code
reads id, name, email, role and the nullable unique recruiter_code. -/
structure User where
  id : Nat
  name : String
  email : String
  role : String
  recruiter_code : Option String
  deriving Repr, DecidableEq

/-- The relational store: one list of rows per table the core touches. -/
structure Store where
  invite_tokens : List InviteToken
  user_assessments : List UserAssessment
  assessments : List Assessment
  questions : List Question
  users : List User
  deriving Repr, DecidableEq

/-- Python str.lower() as used on role strings (ASCII roles). This is
String.toLower, rewritten structurally over the character list so that
proofs can evaluate it. -/
def strLower (s : String) : String := ⟨s.data.map Char.toLower⟩

/-- db.query(InviteToken).filter(InviteToken.token == token).first() -/
def findToken (s : Store) (tok : String) : Option InviteToken :=
  s.invite_tokens.find? (fun it => it.token == tok)

/-- db.query(Assessment).filter_by(id=aid).first() -/
def findAssessment (s : Store) (aid : Nat) : Option Assessment :=
  s.assessments.find? (fun a => a.id == aid)

/-- db.query(User).filter(User.id == uid).first() -/
def findUser (s : Store) (uid : Nat) : Option User :=
  s.users.find? (fun u => u.id == uid)

/-- Whether a UserAssessment row matches the exact
(user_id, recruiter_id, assessment_id) filter used before creating a
Linkage (routers/invite.py and services/user_service.py). -/
def uaTripleMatch (uid rid aid : Nat) (ua : UserAssessment) : Bool :=
  ua.user_id == uid && ua.recruiter_id == some rid && ua.assessment_id == aid

/-- db.query(UserAssessment).filter_by(user_id=…, recruiter_id=…,
assessment_id=…).first(), over an explicit row list. -/
def findUATriple (uas : List UserAssessment) (uid rid aid : Nat) :
    Option UserAssessment :=
  uas.find? (uaTripleMatch uid rid aid)

/-- invite.used = True propagated to the row list (the token column is
unique-indexed, so at most one row matches). -/
def markUsed (toks : List InviteToken) (tok : String) : List InviteToken :=
  toks.map (fun it => if it.token == tok then { it with used := true } else it)

/-- Outcome of POST /invites/accept/{token} (accept_invite_token). -/
inductive AcceptResult where
  /-- 400 "Invalid invitation token. …" -/
  | invalidToken
  /-- 400 "This invitation has already been used." -/
  | alreadyUsed
  /-- 400 "This invitation has expired. …" -/
  | expired
  /-- 404 "Assessment not found for this invitation." -/
  | assessmentMissing
  /-- 200 "You are already linked to this assessment." -/
  | alreadyLinkedMsg
  /-- 200 success payload with assessment_name and recruiter_id. -/
  | accepted (assessment_name : String) (recruiter_id : Nat)
  /-- 500 raised by the except branch after db.rollback(). -/
  | failed500
  /-- commit exception escaping the handler on the already-linked path
  (no try/except there; the framework turns it into a 500). -/
  | commitError
  deriving Repr, DecidableEq

/-- routers/invite.py accept_invite_token: validate the token, resolve
the assessment and its creator, mark the token used, and create the
Linkage unless one already exists for the exact triple. -/
def acceptInviteToken (s : Store) (tok : String) (now : Nat) (u : User)
    (commitOk : Bool) : AcceptResult × Store :=
  match findToken s tok with
  | none => (.invalidToken, s)
  | some invite =>
    if invite.used then (.alreadyUsed, s)
    else if invite.expires_at < now then (.expired, s)
    else
      match findAssessment s invite.assessment_id with
      | none => (.assessmentMissing, s)
      | some assessment =>
        let recruiter_id := assessment.created_by_user_id
        match findUATriple s.user_assessments u.id recruiter_id
            invite.assessment_id with
        | some _ =>
          if commitOk then
            (.alreadyLinkedMsg,
              { s with invite_tokens := markUsed s.invite_tokens tok })
          else (.commitError, s)
        | none =>
          let ua : UserAssessment :=
            { user_id := u.id
              recruiter_id := some recruiter_id
              assessment_id := invite.assessment_id
              student_email := some u.email
              status := .INVITED
              score := none
              start_time := none
              end_time := none }
          if commitOk then
            (.accepted assessment.name recruiter_id,
              { s with
                  user_assessments := s.user_assessments ++ [ua]
                  invite_tokens := markUsed s.invite_tokens tok })
          else (.failed500, s)

/-- Outcome of GET /invites/validate/{token} (validate_invite_token).
The handler performs no writes, so it returns no store. -/
inductive ValidateResult where
  | invalidToken
  | alreadyUsed
  | expired
  | assessmentMissing
  | preview (title : String) (questions : List (Nat × String))
      (duration : Nat) (assessment_id : Nat)
  deriving Repr, DecidableEq

/-- routers/invite.py validate_invite_token: read-only classification of
a token, with the assessment preview on success. -/
def validateInviteToken (s : Store) (tok : String) (now : Nat) :
    ValidateResult :=
  match findToken s tok with
  | none => .invalidToken
  | some invite =>
    if invite.used then .alreadyUsed
    else if invite.expires_at < now then .expired
    else
      match findAssessment s invite.assessment_id with
      | none => .assessmentMissing
      | some assessment =>
        .preview assessment.name
          (assessment.question_ids.filterMap (fun qid =>
            (s.questions.find? (fun q => q.id == qid)).map
              (fun q => (q.id, q.question_text))))
          assessment.duration assessment.id

/-- Response body of GET /invites/status/{token}: always a 200 payload
with a valid flag, a message and a status string. -/
structure StatusResponse where
  valid : Bool
  message : String
  status : String
  assessment_name : Option String := none
  student_email : Option String := none
  expires_at : Option Nat := none
  deriving Repr, DecidableEq

/-- routers/invite.py get_invite_status: unauthenticated read-only
classification; every branch returns a payload, none raises. -/
def getInviteStatus (s : Store) (tok : String) (now : Nat) :
    StatusResponse :=
  match findToken s tok with
  | none =>
    { valid := false, message := "Invalid invitation token"
      status := "invalid" }
  | some invite =>
    if invite.used then
      { valid := false, message := "This invitation has already been used"
        status := "used" }
    else if invite.expires_at < now then
      { valid := false, message := "This invitation has expired"
        status := "expired" }
    else
      match findAssessment s invite.assessment_id with
      | none =>
        { valid := false
          message := "Assessment not found for this invitation"
          status := "assessment_not_found" }
      | some assessment =>
        { valid := true, message := "Invitation is valid", status := "valid"
          assessment_name := some assessment.name
          student_email := some invite.student_email
          expires_at := some invite.expires_at }

/-- The endpoint paired with the store it leaves behind: the handler
body contains no db.add, no attribute write and no db.commit, so the
store passes through unchanged. -/
def getInviteStatusOp (s : Store) (tok : String) (now : Nat) :
    StatusResponse × Store :=
  (getInviteStatus s tok now, s)

/-- services/user_service.py UserService.validate_recruiter_code: empty
codes are falsy and rejected outright; otherwise look up a user whose
recruiter_code equals the code and whose role is literally Admin or
Recruiter (the query compares case-sensitively). -/
def validateRecruiterCode (s : Store) (recruiter_code : String) :
    Option User :=
  if recruiter_code = "" then none
  else
    s.users.find? (fun u =>
      u.recruiter_code == some recruiter_code
        && (u.role == "Admin" || u.role == "Recruiter"))

/-- The Linkage row built inside UserService.link_student_to_recruiter:
status INVITED and every unset column NULL. -/
def mkLinkUA (student : User) (rid aid : Nat) : UserAssessment :=
  { user_id := student.id
    recruiter_id := some rid
    assessment_id := aid
    student_email := some student.email
    status := .INVITED
    score := none
    start_time := none
    end_time := none }

/-- The for-loop of UserService.link_student_to_recruiter: for each
recruiter assessment, add a Linkage unless a row with the exact
(user_id, recruiter_id, assessment_id) triple is already visible; with
autoflush, each check also sees the rows added earlier in the loop, so
the check runs against the accumulated list. -/
def addAssessmentLinks (uas : List UserAssessment) (student : User)
    (rid : Nat) : List Assessment → List UserAssessment
  | [] => uas
  | a :: rest =>
    if (findUATriple uas student.id rid a.id).isSome then
      addAssessmentLinks uas student rid rest
    else
      addAssessmentLinks (uas ++ [mkLinkUA student rid a.id]) student rid rest

/-- services/user_service.py UserService.link_student_to_recruiter:
validate recruiter and student, then create one Linkage per recruiter
assessment the student lacks, committing all of them at once; the except
branch rolls the whole transaction back and returns False. -/
def linkStudentToRecruiterService (s : Store) (student_id rid : Nat)
    (commitOk : Bool) : Bool × Store :=
  match findUser s rid with
  | none => (false, s)
  | some recruiter =>
    if strLower recruiter.role = "admin" ∨ strLower recruiter.role = "recruiter"
    then
      let recruiterAssessments :=
        s.assessments.filter (fun a => a.created_by_user_id == rid)
      match findUser s student_id with
      | none => (false, s)
      | some student =>
        if commitOk then
          (true,
            { s with
                user_assessments :=
                  addAssessmentLinks s.user_assessments student rid
                    recruiterAssessments })
        else (false, s)
    else (false, s)

/-- One entry of the linked_assessments list returned to the student
(UserService.get_recruiter_assessments_for_student). -/
structure AssessmentSummary where
  id : Nat
  name : String
  description : String
  duration : Nat
  status : String
  score : Option Nat
  start_time : Option Nat
  end_time : Option Nat
  deriving Repr, DecidableEq

/-- services/user_service.py
UserService.get_recruiter_assessments_for_student: project every Linkage
between the pair through its assessment; if any assessment row is
missing the attribute access raises and the except branch returns []. -/
def getRecruiterAssessmentsForStudent (s : Store) (student_id rid : Nat) :
    List AssessmentSummary :=
  let uas := s.user_assessments.filter (fun ua =>
    ua.user_id == student_id && ua.recruiter_id == some rid)
  match uas.mapM (fun ua =>
      (findAssessment s ua.assessment_id).map (fun a =>
        { id := a.id, name := a.name, description := a.description
          duration := a.duration, status := ua.status.value
          score := ua.score, start_time := ua.start_time
          end_time := ua.end_time : AssessmentSummary })) with
  | some l => l
  | none => []

/-- Outcome of POST /recruiter-code/link (link_student_to_recruiter in
routers/recruiter_code.py). -/
inductive LinkResult where
  /-- 403 "Only students can link to recruiters." -/
  | roleForbidden
  /-- 400 "Invalid recruiter code. …" -/
  | invalidCode
  /-- 400 "You are already linked to this recruiter." -/
  | alreadyLinked
  /-- 500 "Failed to link to recruiter. …" -/
  | failed500
  /-- 200 success payload. -/
  | success (recruiter_name : String) (recruiter_id : Nat)
      (linked_assessments : List AssessmentSummary)
  deriving Repr, DecidableEq

/-- routers/recruiter_code.py link_student_to_recruiter: role gate, code
validation, then the already-linked check, which filters only on
(user_id, recruiter_id) — the assessment is not part of the filter. -/
def linkStudentToRecruiterRoute (s : Store) (recruiter_code : String)
    (u : User) (commitOk : Bool) : LinkResult × Store :=
  if strLower u.role ≠ "student" then (.roleForbidden, s)
  else
    match validateRecruiterCode s recruiter_code with
    | none => (.invalidCode, s)
    | some recruiter =>
      match s.user_assessments.find? (fun ua =>
          ua.user_id == u.id && ua.recruiter_id == some recruiter.id) with
      | some _ => (.alreadyLinked, s)
      | none =>
        match linkStudentToRecruiterService s u.id recruiter.id commitOk with
        | (true, s1) =>
          (.success recruiter.name recruiter.id
            (getRecruiterAssessmentsForStudent s1 u.id recruiter.id), s1)
        | (false, s1) => (.failed500, s1)

/-- Outcome of POST /user_assessments/start (start_assessment in
routers/user_assessment.py). The require_student dependency is an auth
gate outside the handler body; the body itself never reads the role. -/
inductive StartResult where
  /-- 404 "Assessment not found" -/
  | assessmentNotFound
  /-- 400 "You already have an active assessment for this test" -/
  | activeExists
  /-- 200 with the created row. -/
  | started
  /-- commit exception escaping the handler (no try/except). -/
  | commitError
  deriving Repr, DecidableEq

/-- routers/user_assessment.py start_assessment: reject only when a
STARTED row for (user_id, assessment_id) exists, then insert a fresh row
with no recruiter_id. -/
def startAssessment (s : Store) (assessment_id : Nat) (u : User)
    (now : Nat) (commitOk : Bool) : StartResult × Store :=
  match findAssessment s assessment_id with
  | none => (.assessmentNotFound, s)
  | some _ =>
    match s.user_assessments.find? (fun ua =>
        ua.user_id == u.id && ua.assessment_id == assessment_id
          && ua.status == AssessmentStatus.STARTED) with
    | some _ => (.activeExists, s)
    | none =>
      let ua : UserAssessment :=
        { user_id := u.id
          recruiter_id := none
          assessment_id := assessment_id
          student_email := none
          status := .STARTED
          score := none
          start_time := some now
          end_time := none }
      if commitOk then
        (.started, { s with user_assessments := s.user_assessments ++ [ua] })
      else (.commitError, s)

/-- Outcome of the direct-assignment script
(create_student_assessment.py assign_assessment_to_student). -/
inductive AssignResult where
  | noUser
  | noAssessment
  | alreadyAssigned
  | assigned
  | commitError
  deriving Repr, DecidableEq

/-- create_student_assessment.py assign_assessment_to_student: look the
student up by email, skip when any row for (user_id, assessment_id)
exists, otherwise insert a PENDING row with no recruiter_id. -/
def assignAssessmentToStudent (s : Store) (student_email : String)
    (assessment_id : Nat) (commitOk : Bool) : AssignResult × Store :=
  match s.users.find? (fun u => u.email == student_email) with
  | none => (.noUser, s)
  | some user =>
    match findAssessment s assessment_id with
    | none => (.noAssessment, s)
    | some _ =>
      match s.user_assessments.find? (fun ua =>
          ua.user_id == user.id && ua.assessment_id == assessment_id) with
      | some _ => (.alreadyAssigned, s)
      | none =>
        let ua : UserAssessment :=
          { user_id := user.id
            recruiter_id := none
            assessment_id := assessment_id
            student_email := none
            status := .PENDING
            score := none
            start_time := none
            end_time := none }
        if commitOk then
          (.assigned,
            { s with user_assessments := s.user_assessments ++ [ua] })
        else (.commitError, s)

/-- One entry of GET /user_assessments/students/me/assessments. The
source computes the percentage in floating point; it is embedded here as
the exact rational score / total_marks * 100. -/
structure MyAssessmentEntry where
  assessment_id : Nat
  assessment_name : String
  status : String
  score : Option ℚ
  deriving Repr, DecidableEq

/-- SUM(Question.marks) over the questions whose id is in qids
(duplicates in qids do not double-count: the SQL filter is id IN qids
over the questions table). -/
def totalMarks (s : Store) (qids : List Nat) : Nat :=
  ((s.questions.filter (fun q => q.id ∈ qids)).map (fun q => q.marks)).sum

/-- routers/user_assessment.py get_my_assessments: one output entry per
UserAssessment row of the student, in row order, with the percentage
when a score and a non-zero total are available. There is no
de-duplication step. -/
def getMyAssessments (s : Store) (u : User) : List MyAssessmentEntry :=
  (s.user_assessments.filter (fun ua => ua.user_id == u.id)).map (fun ua =>
    match findAssessment s ua.assessment_id with
    | none =>
      { assessment_id := ua.assessment_id
        assessment_name := "Assessment"
        status := ua.status.value
        score := none }
    | some a =>
      let tm := totalMarks s a.question_ids
      { assessment_id := ua.assessment_id
        assessment_name := a.name
        status := ua.status.value
        score :=
          match ua.score with
          | some sc => if tm ≠ 0 then some ((sc : ℚ) / (tm : ℚ) * 100) else none
          | none => none })

/-! ## The uniqueness invariant and basic lemmas -/

/-- The (user_id, assessment_id, recruiter_id) key of a Linkage row. -/
def tripleOf (ua : UserAssessment) : Nat × Nat × Option Nat :=
  (ua.user_id, ua.assessment_id, ua.recruiter_id)

/-- The uniqueness invariant on the user_assessments table: at most one
row per (user_id, assessment_id, recruiter_id) triple. -/
def DistinctTriples (l : List UserAssessment) : Prop :=
  l.Pairwise (fun a b => tripleOf a ≠ tripleOf b)

instance instDecidableDistinctTriples (l : List UserAssessment) :
    Decidable (DistinctTriples l) :=
  inferInstanceAs
    (Decidable (List.Pairwise (fun a b => tripleOf a ≠ tripleOf b) l))

/-- The four status classifications named by the spec for
GET /invites/status/{token}. -/
inductive StatusClass where
  | valid
  | used
  | expired
  | notFound
  deriving Repr, DecidableEq

/-- Maps the literal status strings of get_invite_status onto the
classification of the spec: the handler reports an absent token as
"invalid" and an absent assessment as "assessment_not_found", both
instances of the spec class not_found (the spec error taxonomy folds
token and assessment absence into NotFound). -/
def statusClassOf (st : String) : Option StatusClass :=
  if st = "valid" then some .valid
  else if st = "used" then some .used
  else if st = "expired" then some .expired
  else if st = "invalid" then some .notFound
  else if st = "assessment_not_found" then some .notFound
  else none

/-- The row set the spec says a successful link creates: one Linkage per
assessment currently owned by the recruiter for which the student has no
existing Linkage with the exact triple. -/
def missingLinkRows (s : Store) (student : User) (rid : Nat) :
    List UserAssessment :=
  ((s.assessments.filter (fun a => a.created_by_user_id == rid)).filter
      (fun a => (findUATriple s.user_assessments student.id rid a.id).isNone)).map
    (fun a => mkLinkUA student rid a.id)

/-! ## Concrete fixtures used by witnesses and counterexamples -/

/-- A student identity. -/
def fxStudent : User :=
  { id := 1, name := "Alice", email := "alice@x.com", role := "Student"
    recruiter_code := none }

/-- A recruiter identity owning the recruiter code ABC12345. -/
def fxRecruiter : User :=
  { id := 2, name := "Bob", email := "bob@x.com", role := "Recruiter"
    recruiter_code := some "ABC12345" }

/-- An assessment created by the recruiter. -/
def fxAssessment : Assessment :=
  { id := 1, created_by_user_id := 2, name := "A1", description := "d"
    duration := 30, question_ids := [] }

/-- A second assessment of the same recruiter. -/
def fxAssessment2 : Assessment :=
  { id := 3, created_by_user_id := 2, name := "A2", description := "d"
    duration := 45, question_ids := [] }

/-- A redeemable invitation token for fxAssessment sent to Alice. -/
def fxToken : InviteToken :=
  { token := "tk", assessment_id := 1, student_email := "alice@x.com"
    used := false, expires_at := 100 }

/-- A token that is both used and past its expiry at time 10. -/
def fxUsedExpiredToken : InviteToken :=
  { token := "ue", assessment_id := 1, student_email := "alice@x.com"
    used := true, expires_at := 5 }

/-- An unused token past its expiry at time 10. -/
def fxExpiredToken : InviteToken :=
  { token := "ex", assessment_id := 1, student_email := "alice@x.com"
    used := false, expires_at := 5 }

/-- A Linkage of the student to fxAssessment attributed to the
recruiter, as redemption creates it. -/
def fxLinkedRow : UserAssessment :=
  { user_id := 1, recruiter_id := some 2, assessment_id := 1
    student_email := some "alice@x.com", status := .INVITED
    score := none, start_time := none, end_time := none }

/-- Base store: one redeemable token, no Linkage yet. -/
def fxStore : Store :=
  { invite_tokens := [fxToken], user_assessments := []
    assessments := [fxAssessment], questions := []
    users := [fxStudent, fxRecruiter] }

/-- Store whose student is already linked for the token assessment. -/
def fxLinkedStore : Store :=
  { invite_tokens := [fxToken], user_assessments := [fxLinkedRow]
    assessments := [fxAssessment], questions := []
    users := [fxStudent, fxRecruiter] }

/-- Store holding the used-and-expired token. -/
def fxUsedExpiredStore : Store :=
  { invite_tokens := [fxUsedExpiredToken], user_assessments := []
    assessments := [fxAssessment], questions := [], users := [] }

/-- Store holding the unused expired token. -/
def fxExpiredStore : Store :=
  { invite_tokens := [fxExpiredToken], user_assessments := []
    assessments := [fxAssessment], questions := [], users := [] }

/-- Store with no Assessment rows at all (its recruiter owns none). -/
def fxNoAssessStore : Store :=
  { invite_tokens := [], user_assessments := [], assessments := []
    questions := [], users := [fxStudent, fxRecruiter] }

/-- The store fxNoAssessStore after a first successful link call. -/
def fxNoAssessStore1 : Store :=
  (linkStudentToRecruiterRoute fxNoAssessStore "ABC12345" fxStudent true).2

/-- fxStore after the direct-assignment script assigns fxAssessment to
the student (a PENDING Linkage with no recruiter). -/
def fxAssignedStore : Store :=
  (assignAssessmentToStudent fxStore "alice@x.com" 1 true).2

/-- fxStore after the student redeems the token and then starts the
assessment: the invite-created Linkage plus the recruiter-less row
created by start_assessment. -/
def fxRedeemStartStore : Store :=
  (startAssessment (acceptInviteToken fxStore "tk" 10 fxStudent true).2
    1 fxStudent 20 true).2

/-- Store with two assessments of the recruiter and the redeemable
token for the first one. -/
def fxTwoAssessStore : Store :=
  { invite_tokens := [fxToken], user_assessments := []
    assessments := [fxAssessment, fxAssessment2], questions := []
    users := [fxStudent, fxRecruiter] }

/-- fxTwoAssessStore after the student redeems the token. -/
def fxAfterRedeemStore : Store :=
  (acceptInviteToken fxTwoAssessStore "tk" 10 fxStudent true).2

theorem uaTripleMatch_iff (uid rid aid : Nat) (ua : UserAssessment) :
    uaTripleMatch uid rid aid ua = true ↔ tripleOf ua = (uid, aid, some rid) := by
  simp only [uaTripleMatch, tripleOf, Bool.and_eq_true, beq_iff_eq,
    Prod.mk.injEq]
  tauto

theorem findUATriple_eq_none_iff (uas : List UserAssessment)
    (uid rid aid : Nat) :
    findUATriple uas uid rid aid = none
      ↔ ∀ ua ∈ uas, tripleOf ua ≠ (uid, aid, some rid) := by
  simp [findUATriple, List.find?_eq_none, uaTripleMatch_iff]

theorem findUATriple_append (xs ys : List UserAssessment)
    (uid rid aid : Nat) :
    findUATriple (xs ++ ys) uid rid aid
      = (findUATriple xs uid rid aid).or (findUATriple ys uid rid aid) := by
  simp [findUATriple, List.find?_append]

theorem tripleOf_mkLinkUA (student : User) (rid aid : Nat) :
    tripleOf (mkLinkUA student rid aid) = (student.id, aid, some rid) := rfl

theorem findToken_markUsed (toks : List InviteToken) (tok : String) :
    (markUsed toks tok).find? (fun it => it.token == tok)
      = (toks.find? (fun it => it.token == tok)).map
          (fun it => { it with used := true }) := by
  induction toks with
  | nil => rfl
  | cons it rest ih =>
    by_cases h : it.token = tok
    · simp [markUsed, List.find?_cons, h]
    · simpa [markUsed, List.find?_cons, h] using ih

theorem distinctTriples_append_singleton (l : List UserAssessment)
    (x : UserAssessment) (h : DistinctTriples l)
    (hx : ∀ ua ∈ l, tripleOf ua ≠ tripleOf x) :
    DistinctTriples (l ++ [x]) := by
  rw [DistinctTriples, List.pairwise_append]
  refine ⟨h, by simp, ?_⟩
  intro a ha b hb
  simp only [List.mem_singleton] at hb
  subst hb
  exact hx a ha

/-! ## Lemmas about the Linkage-creation loop of the linking service -/

theorem mem_addAssessmentLinks (student : User) (rid : Nat) :
    ∀ (l : List Assessment) (uas : List UserAssessment)
      (x : UserAssessment), x ∈ uas →
      x ∈ addAssessmentLinks uas student rid l := by
  intro l
  induction l with
  | nil => intro uas x hx; simpa [addAssessmentLinks] using hx
  | cons a rest ih =>
    intro uas x hx
    by_cases h : (findUATriple uas student.id rid a.id).isSome
    · simpa [addAssessmentLinks, h] using ih uas x hx
    · simp only [addAssessmentLinks, h, if_false]
      exact ih _ x (List.mem_append_left _ hx)

theorem addAssessmentLinks_creates (student : User) (rid : Nat) :
    ∀ (l : List Assessment) (uas : List UserAssessment) (a : Assessment),
      a ∈ l →
      ∃ ua ∈ addAssessmentLinks uas student rid l,
        uaTripleMatch student.id rid a.id ua = true := by
  intro l
  induction l with
  | nil => intro uas a ha; cases ha
  | cons b rest ih =>
    intro uas a ha
    rcases List.mem_cons.mp ha with hab | hmem
    · subst hab
      by_cases h : (findUATriple uas student.id rid a.id).isSome
      · rcases Option.isSome_iff_exists.mp h with ⟨ua, hua⟩
        refine ⟨ua, ?_, List.find?_some hua⟩
        simp only [addAssessmentLinks, h, if_true]
        exact mem_addAssessmentLinks student rid rest uas ua
          (List.mem_of_find?_eq_some hua)
      · refine ⟨mkLinkUA student rid a.id, ?_, ?_⟩
        · simp only [addAssessmentLinks, h, if_false]
          exact mem_addAssessmentLinks student rid rest _ _
            (List.mem_append_right _ (List.mem_singleton_self _))
        · simp [uaTripleMatch, mkLinkUA]
    · by_cases h : (findUATriple uas student.id rid b.id).isSome
      · simp only [addAssessmentLinks, h, if_true]
        exact ih uas a hmem
      · simp only [addAssessmentLinks, h, if_false]
        exact ih _ a hmem

theorem addAssessmentLinks_preserves_distinct (student : User) (rid : Nat) :
    ∀ (l : List Assessment) (uas : List UserAssessment),
      DistinctTriples uas →
      DistinctTriples (addAssessmentLinks uas student rid l) := by
  intro l
  induction l with
  | nil => intro uas h; simpa [addAssessmentLinks] using h
  | cons a rest ih =>
    intro uas h
    by_cases hf : (findUATriple uas student.id rid a.id).isSome
    · simpa [addAssessmentLinks, hf] using ih uas h
    · have hnone : findUATriple uas student.id rid a.id = none := by
        cases hc : findUATriple uas student.id rid a.id with
        | none => rfl
        | some ua => rw [hc] at hf; simp at hf
      have fresh : ∀ ua ∈ uas,
          tripleOf ua ≠ tripleOf (mkLinkUA student rid a.id) := by
        intro ua hua
        rw [tripleOf_mkLinkUA]
        exact (findUATriple_eq_none_iff uas student.id rid a.id).mp hnone ua hua
      simp only [addAssessmentLinks, hf, if_false]
      exact ih _ (distinctTriples_append_singleton uas _ h fresh)

theorem addAssessmentLinks_characterization (student : User) (rid : Nat) :
    ∀ (l : List Assessment) (uas E : List UserAssessment),
      (l.map (fun a => a.id)).Nodup →
      (∀ e ∈ E, ∀ a ∈ l, uaTripleMatch student.id rid a.id e = false) →
      addAssessmentLinks (uas ++ E) student rid l
        = uas ++ E
            ++ ((l.filter (fun a =>
                  (findUATriple uas student.id rid a.id).isNone)).map
                (fun a => mkLinkUA student rid a.id)) := by
  intro l
  induction l with
  | nil => intro uas E _ _; simp [addAssessmentLinks]
  | cons a rest ih =>
    intro uas E hnodup hE
    have hEnone : findUATriple E student.id rid a.id = none := by
      rw [findUATriple]
      rw [List.find?_eq_none]
      intro e he
      simp [hE e he a (List.mem_cons_self a rest)]
    have hsplit : findUATriple (uas ++ E) student.id rid a.id
        = findUATriple uas student.id rid a.id := by
      rw [findUATriple_append, hEnone, Option.or_none]
    have hnodup' := hnodup
    rw [List.map_cons, List.nodup_cons] at hnodup'
    have hnodup1 : (rest.map (fun x => x.id)).Nodup := hnodup'.2
    by_cases hf : (findUATriple uas student.id rid a.id).isSome
    · have hfilter : (findUATriple uas student.id rid a.id).isNone = false := by
        simp [Option.isNone_eq_false_iff, hf]
      simp only [addAssessmentLinks, hsplit, hf, if_true, List.filter_cons,
        hfilter]
      exact ih uas E hnodup1 (fun e he b hb => hE e he b (List.mem_cons_of_mem a hb))
    · have haid : a.id ∉ rest.map (fun x => x.id) := hnodup'.1
      have hE1 : ∀ e ∈ E ++ [mkLinkUA student rid a.id], ∀ b ∈ rest,
          uaTripleMatch student.id rid b.id e = false := by
        intro e he b hb
        rcases List.mem_append.mp he with heE | heM
        · exact hE e heE b (List.mem_cons_of_mem a hb)
        · simp only [List.mem_singleton] at heM
          subst heM
          simp only [uaTripleMatch, mkLinkUA, Bool.and_eq_true, beq_iff_eq,
            Bool.and_eq_false_iff]
          right
          simp only [beq_eq_false_iff_ne, ne_eq]
          intro hcontra
          exact haid (hcontra ▸ List.mem_map_of_mem (fun x => x.id) hb)
      have hfilter : (findUATriple uas student.id rid a.id).isNone = true := by
        simp [Option.isNone_iff_eq_none]
        cases hc : findUATriple uas student.id rid a.id with
        | none => rfl
        | some ua => rw [hc] at hf; simp at hf
      simp only [addAssessmentLinks, hsplit, hf, if_false, List.filter_cons,
        hfilter, if_true, List.map_cons]
      have := ih uas (E ++ [mkLinkUA student rid a.id]) hnodup1 hE1
      rw [← List.append_assoc] at this
      rw [this]
      simp [List.append_assoc]

/-! ## Run characterization of redemption -/

/-- Every run of accept_invite_token is one of: a rejection that leaves
the store untouched, the already-linked consumption that only marks the
token used, or the linked acceptance that marks the token used and
appends exactly the one new Linkage, in a single commit. -/
theorem accept_run_cases (s : Store) (tok : String) (now : Nat) (u : User)
    (commitOk : Bool) :
    ((acceptInviteToken s tok now u commitOk).2 = s
      ∧ ((acceptInviteToken s tok now u commitOk).1 = .invalidToken
        ∨ (acceptInviteToken s tok now u commitOk).1 = .alreadyUsed
        ∨ (acceptInviteToken s tok now u commitOk).1 = .expired
        ∨ (acceptInviteToken s tok now u commitOk).1 = .assessmentMissing
        ∨ (acceptInviteToken s tok now u commitOk).1 = .failed500
        ∨ (acceptInviteToken s tok now u commitOk).1 = .commitError))
    ∨ (∃ invite assessment ua,
        findToken s tok = some invite ∧ invite.used = false
        ∧ findAssessment s invite.assessment_id = some assessment
        ∧ ua ∈ s.user_assessments
        ∧ uaTripleMatch u.id assessment.created_by_user_id
            invite.assessment_id ua = true
        ∧ acceptInviteToken s tok now u commitOk
            = (.alreadyLinkedMsg,
               { s with invite_tokens := markUsed s.invite_tokens tok }))
    ∨ (∃ invite assessment,
        findToken s tok = some invite ∧ invite.used = false
        ∧ findAssessment s invite.assessment_id = some assessment
        ∧ findUATriple s.user_assessments u.id assessment.created_by_user_id
            invite.assessment_id = none
        ∧ acceptInviteToken s tok now u commitOk
            = (.accepted assessment.name assessment.created_by_user_id,
               { s with
                   user_assessments := s.user_assessments
                     ++ [{ user_id := u.id
                           recruiter_id := some assessment.created_by_user_id
                           assessment_id := invite.assessment_id
                           student_email := some u.email
                           status := .INVITED, score := none
                           start_time := none, end_time := none }]
                   invite_tokens := markUsed s.invite_tokens tok })) := by
  cases hft : findToken s tok with
  | none => exact Or.inl (by simp [acceptInviteToken, hft])
  | some invite =>
    by_cases hu : invite.used = true
    · exact Or.inl (by simp [acceptInviteToken, hft, hu])
    · have hu' : invite.used = false := by simpa using hu
      by_cases he : invite.expires_at < now
      · exact Or.inl (by simp [acceptInviteToken, hft, hu', he])
      · cases hfa : findAssessment s invite.assessment_id with
        | none => exact Or.inl (by simp [acceptInviteToken, hft, hu', he, hfa])
        | some assessment =>
          cases hua : findUATriple s.user_assessments u.id
              assessment.created_by_user_id invite.assessment_id with
          | none =>
            cases commitOk with
            | false =>
              exact Or.inl (by simp [acceptInviteToken, hft, hu', he, hfa, hua])
            | true =>
              refine Or.inr (Or.inr ⟨invite, assessment, rfl, hu', hfa, hua, ?_⟩)
              simp [acceptInviteToken, hft, hu', he, hfa, hua]
          | some ua =>
            cases commitOk with
            | false =>
              exact Or.inl (by simp [acceptInviteToken, hft, hu', he, hfa, hua])
            | true =>
              refine Or.inr (Or.inl ⟨invite, assessment, ua, rfl, hu', hfa,
                List.mem_of_find?_eq_some hua, List.find?_some hua, ?_⟩)
              simp [acceptInviteToken, hft, hu', he, hfa, hua]

/-! ## Claims -/

/-- C1: Redemption is atomic: for every token, a successful redeem sets
used=true in the same transactional unit that creates the Linkage, and
on any persistence failure during redemption the whole unit rolls back,
so no execution of redeem leaves used=true without the corresponding
Linkage, nor a Linkage with the token still used=false. Formalized as
the run trichotomy: either the store is untouched and the result is a
rejection or a rolled-back failure, or the token is consumed in the same
commit as the Linkage append (or with the pre-existing Linkage for the
already-linked consumption). -/
theorem claim1_redeem_atomic (s : Store) (tok : String) (now : Nat)
    (u : User) (commitOk : Bool) :
    ((acceptInviteToken s tok now u commitOk).2 = s
      ∧ ((acceptInviteToken s tok now u commitOk).1 = .invalidToken
        ∨ (acceptInviteToken s tok now u commitOk).1 = .alreadyUsed
        ∨ (acceptInviteToken s tok now u commitOk).1 = .expired
        ∨ (acceptInviteToken s tok now u commitOk).1 = .assessmentMissing
        ∨ (acceptInviteToken s tok now u commitOk).1 = .failed500
        ∨ (acceptInviteToken s tok now u commitOk).1 = .commitError))
    ∨ (∃ invite assessment ua,
        findToken s tok = some invite ∧ invite.used = false
        ∧ findAssessment s invite.assessment_id = some assessment
        ∧ ua ∈ s.user_assessments
        ∧ uaTripleMatch u.id assessment.created_by_user_id
            invite.assessment_id ua = true
        ∧ acceptInviteToken s tok now u commitOk
            = (.alreadyLinkedMsg,
               { s with invite_tokens := markUsed s.invite_tokens tok }))
    ∨ (∃ invite assessment,
        findToken s tok = some invite ∧ invite.used = false
        ∧ findAssessment s invite.assessment_id = some assessment
        ∧ findUATriple s.user_assessments u.id assessment.created_by_user_id
            invite.assessment_id = none
        ∧ acceptInviteToken s tok now u commitOk
            = (.accepted assessment.name assessment.created_by_user_id,
               { s with
                   user_assessments := s.user_assessments
                     ++ [{ user_id := u.id
                           recruiter_id := some assessment.created_by_user_id
                           assessment_id := invite.assessment_id
                           student_email := some u.email
                           status := .INVITED, score := none
                           start_time := none, end_time := none }]
                   invite_tokens := markUsed s.invite_tokens tok })) :=
  accept_run_cases s tok now u commitOk

/-- C2 counterexample: starting an assessment does not preserve the
triple-uniqueness invariant. From fxStore the direct-assignment script
reaches a store satisfying the invariant with one PENDING recruiter-less
Linkage; start_assessment then succeeds and creates a second Linkage
with the same (user_id, assessment_id, NULL) triple. -/
theorem claim2_counterexample :
    fxAssignedStore = (assignAssessmentToStudent fxStore "alice@x.com" 1 true).2
    ∧ DistinctTriples fxAssignedStore.user_assessments
    ∧ (startAssessment fxAssignedStore 1 fxStudent 20 true).1 = .started
    ∧ ¬ DistinctTriples
        (startAssessment fxAssignedStore 1 fxStudent 20 true).2.user_assessments := by
  refine ⟨rfl, by decide, by decide, by decide⟩

/-- C2 amended: at most one Linkage per (user_id, assessment_id,
recruiter_id) triple is preserved by invite redemption and by
recruiter-code linking; starting an assessment only rejects when a
STARTED record exists for (user_id, assessment_id) and can create a
duplicate (user_id, assessment_id, NULL) triple. -/
theorem claim2_amended_redeem_and_link_preserve_uniqueness (s : Store)
    (tok : String) (now : Nat) (u : User) (co1 : Bool) (sid rid : Nat)
    (co2 : Bool) (h : DistinctTriples s.user_assessments) :
    DistinctTriples (acceptInviteToken s tok now u co1).2.user_assessments
    ∧ DistinctTriples
        (linkStudentToRecruiterService s sid rid co2).2.user_assessments := by
  constructor
  · rcases accept_run_cases s tok now u co1 with hcase | hcase | hcase
    · rw [hcase.1]; exact h
    · rcases hcase with ⟨invite, assessment, ua, _, _, _, _, _, heq⟩
      rw [heq]
      exact h
    · rcases hcase with ⟨invite, assessment, _, _, _, hnone, heq⟩
      rw [heq]
      apply distinctTriples_append_singleton _ _ h
      intro ua hua
      have hne := (findUATriple_eq_none_iff _ _ _ _).mp hnone ua hua
      simpa [tripleOf] using hne
  · unfold linkStudentToRecruiterService
    cases hr : findUser s rid with
    | none => exact h
    | some recruiter =>
      by_cases hrole : strLower recruiter.role = "admin"
          ∨ strLower recruiter.role = "recruiter"
      · cases hs : findUser s sid with
        | none => simp only [hrole, if_true]; exact h
        | some student =>
          cases co2 with
          | false => simp only [hrole, if_true]; exact h
          | true =>
            simp only [hrole, if_true]
            exact addAssessmentLinks_preserves_distinct student rid _ _ h
      · simp only [hrole, if_false]; exact h

/-- C2 amended witness at the base store, whose Linkage table is empty. -/
theorem claim2_amended_witness :
    DistinctTriples
      (acceptInviteToken fxStore "tk" 10 fxStudent true).2.user_assessments
    ∧ DistinctTriples
        (linkStudentToRecruiterService fxStore 1 2 true).2.user_assessments :=
  claim2_amended_redeem_and_link_preserve_uniqueness fxStore "tk" 10 fxStudent
    true 1 2 true (by decide)

/-- C3: a redeemable token whose (redeemer, assessment, recruiter)
Linkage already exists is still consumed: redeem sets used=true, creates
no new Linkage, and returns the already-linked success; and redeeming an
already-used token always returns AlreadyUsed (a 400-class rejection,
never a 500-class failure), for every commit outcome. -/
theorem claim3_redeem_idempotent (s : Store) (tok : String) (now : Nat)
    (u : User) (invite : InviteToken)
    (hft : findToken s tok = some invite) :
    (invite.used = true → ∀ commitOk,
      acceptInviteToken s tok now u commitOk = (.alreadyUsed, s))
    ∧ (invite.used = false → ¬ invite.expires_at < now →
      ∀ assessment, findAssessment s invite.assessment_id = some assessment →
      (findUATriple s.user_assessments u.id assessment.created_by_user_id
          invite.assessment_id).isSome →
      acceptInviteToken s tok now u true
          = (.alreadyLinkedMsg,
             { s with invite_tokens := markUsed s.invite_tokens tok })
        ∧ findToken { s with invite_tokens := markUsed s.invite_tokens tok } tok
            = some { invite with used := true }
        ∧ ({ s with
              invite_tokens := markUsed s.invite_tokens tok }).user_assessments
            = s.user_assessments) := by
  constructor
  · intro hu commitOk
    simp [acceptInviteToken, hft, hu]
  · intro hu he assessment hfa hsome
    rcases Option.isSome_iff_exists.mp hsome with ⟨ua, hua⟩
    refine ⟨by simp [acceptInviteToken, hft, hu, he, hfa, hua], ?_, rfl⟩
    show (markUsed s.invite_tokens tok).find? (fun it => it.token == tok)
        = some { invite with used := true }
    rw [findToken_markUsed]
    rw [show s.invite_tokens.find? (fun it => it.token == tok) = some invite
      from hft]
    rfl

/-- C3 witness: the used-and-expired token is rejected with AlreadyUsed,
and redeeming the redeemable token of the already-linked store consumes
the token and reports the already-linked success. -/
theorem claim3_witness :
    acceptInviteToken fxUsedExpiredStore "ue" 10 fxStudent true
        = (.alreadyUsed, fxUsedExpiredStore)
    ∧ acceptInviteToken fxLinkedStore "tk" 10 fxStudent true
        = (.alreadyLinkedMsg,
           { fxLinkedStore with
               invite_tokens := markUsed fxLinkedStore.invite_tokens "tk" }) :=
  ⟨(claim3_redeem_idempotent fxUsedExpiredStore "ue" 10 fxStudent
      fxUsedExpiredToken (by decide)).1 (by decide) true,
   ((claim3_redeem_idempotent fxLinkedStore "tk" 10 fxStudent fxToken
      (by decide)).2 (by decide) (by decide) fxAssessment (by decide)
      (by decide)).1⟩

/-- C4 counterexample: after the student redeems the invite for
assessment 1 and then starts that assessment, my_assessments returns two
entries with assessment_id 1 — the returned sequence is not
de-duplicated keyed by assessment_id, and the student, whose Linkages
include the direct-invite Linkage for assessment 1, does not get exactly
one entry for it. -/
theorem claim4_counterexample :
    (acceptInviteToken fxStore "tk" 10 fxStudent true).1 = .accepted "A1" 2
    ∧ (startAssessment (acceptInviteToken fxStore "tk" 10 fxStudent true).2
        1 fxStudent 20 true).1 = .started
    ∧ (∃ ua ∈ fxRedeemStartStore.user_assessments,
        ua.user_id = 1 ∧ ua.recruiter_id = some 2 ∧ ua.assessment_id = 1)
    ∧ ((getMyAssessments fxRedeemStartStore fxStudent).map
        (fun e => e.assessment_id)) = [1, 1] := by
  refine ⟨by decide, by decide, by decide, by decide⟩

/-- C4 amended: my_assessments returns exactly one entry per Linkage row
of the student, in row order, with no read-time de-duplication by
assessment_id; the direct-invite and recruiter-code creation paths share
the (user_id, assessment_id, recruiter_id) triple and check it before
inserting, so they alone never yield two entries for one assessment, but
a second row with the same assessment_id and a different recruiter_id
(such as the NULL-recruiter row made by start_assessment) yields a
second entry. -/
theorem claim4_amended_one_entry_per_row (s : Store) (u : User) :
    (getMyAssessments s u).map (fun e => e.assessment_id)
      = (s.user_assessments.filter (fun ua => ua.user_id == u.id)).map
          (fun ua => ua.assessment_id) := by
  unfold getMyAssessments
  rw [List.map_map]
  apply List.map_congr_left
  intro ua _
  cases hfa : findAssessment s ua.assessment_id with
  | none => simp [hfa]
  | some a => cases ua.score with
    | none => simp [hfa]
    | some sc => simp [hfa]

/-- C5 counterexample: a token that is both used and past its expiry is
classified AlreadyUsed, not Expired, by validate and by status — the
claim that validate returns Expired for any token with now > expires_at
regardless of the used value fails. -/
theorem claim5_counterexample :
    findToken fxUsedExpiredStore "ue" = some fxUsedExpiredToken
    ∧ fxUsedExpiredToken.expires_at < 10
    ∧ fxUsedExpiredToken.used = true
    ∧ validateInviteToken fxUsedExpiredStore "ue" 10 = .alreadyUsed
    ∧ validateInviteToken fxUsedExpiredStore "ue" 10 ≠ .expired
    ∧ (getInviteStatus fxUsedExpiredStore "ue" 10).status = "used" := by
  refine ⟨by decide, by decide, by decide, by decide, by decide, by decide⟩

/-- C5 amended: used is checked first: every used token is classified
AlreadyUsed (status "used") even past its expiry, and every unused token
with now > expires_at is classified Expired (status "expired"), by both
validate and the status classification. -/
theorem claim5_amended_used_precedes_expired (s : Store) (tok : String)
    (now : Nat) (invite : InviteToken)
    (hft : findToken s tok = some invite) :
    (invite.used = true →
      validateInviteToken s tok now = .alreadyUsed
      ∧ (getInviteStatus s tok now).status = "used")
    ∧ (invite.used = false → invite.expires_at < now →
      validateInviteToken s tok now = .expired
      ∧ (getInviteStatus s tok now).status = "expired") := by
  constructor
  · intro hu
    exact ⟨by simp [validateInviteToken, hft, hu],
      by simp [getInviteStatus, hft, hu]⟩
  · intro hu he
    exact ⟨by simp [validateInviteToken, hft, hu, he],
      by simp [getInviteStatus, hft, hu, he]⟩

/-- C5 amended witness: the used-and-expired token reports used; the
unused expired token reports expired. -/
theorem claim5_amended_witness :
    (validateInviteToken fxUsedExpiredStore "ue" 10 = .alreadyUsed
      ∧ (getInviteStatus fxUsedExpiredStore "ue" 10).status = "used")
    ∧ (validateInviteToken fxExpiredStore "ex" 10 = .expired
      ∧ (getInviteStatus fxExpiredStore "ex" 10).status = "expired") :=
  ⟨(claim5_amended_used_precedes_expired fxUsedExpiredStore "ue" 10
      fxUsedExpiredToken (by decide)).1 (by decide),
   (claim5_amended_used_precedes_expired fxExpiredStore "ex" 10
      fxExpiredToken (by decide)).2 (by decide) (by decide)⟩

/-- C8: for every input token string, the status operation leaves the
store unchanged (the handler performs no writes), is total (every branch
returns a payload, none raises), and its status string always denotes
one of the four spec classifications valid, used, expired, not_found. -/
theorem claim8_status_total_readonly (s : Store) (tok : String) (now : Nat) :
    (getInviteStatusOp s tok now).2 = s
    ∧ (statusClassOf (getInviteStatusOp s tok now).1.status).isSome := by
  refine ⟨rfl, ?_⟩
  show (statusClassOf (getInviteStatus s tok now).status).isSome
  cases hft : findToken s tok with
  | none => simp [getInviteStatus, hft, statusClassOf]
  | some invite =>
    by_cases hu : invite.used = true
    · simp [getInviteStatus, hft, hu, statusClassOf]
    · have hu' : invite.used = false := by simpa using hu
      by_cases he : invite.expires_at < now
      · simp [getInviteStatus, hft, hu', he, statusClassOf]
      · cases hfa : findAssessment s invite.assessment_id with
        | none => simp [getInviteStatus, hft, hu', he, hfa, statusClassOf]
        | some a => simp [getInviteStatus, hft, hu', he, hfa, statusClassOf]

/-- C9 (implicit): redemption is not bound to the invited recipient: for
every redeemable token and every authenticated identity u — with no
hypothesis at all on u.email or u.role — redeem succeeds, either as the
already-linked success or as an acceptance. -/
theorem claim9_redeem_unbound_recipient (s : Store) (tok : String)
    (now : Nat) (u : User) (invite : InviteToken) (assessment : Assessment)
    (hft : findToken s tok = some invite)
    (hu : invite.used = false)
    (he : ¬ invite.expires_at < now)
    (hfa : findAssessment s invite.assessment_id = some assessment) :
    (acceptInviteToken s tok now u true).1 = .alreadyLinkedMsg
    ∨ (acceptInviteToken s tok now u true).1
        = .accepted assessment.name assessment.created_by_user_id := by
  cases hua : findUATriple s.user_assessments u.id
      assessment.created_by_user_id invite.assessment_id with
  | none => exact Or.inr (by simp [acceptInviteToken, hft, hu, he, hfa, hua])
  | some ua => exact Or.inl (by simp [acceptInviteToken, hft, hu, he, hfa, hua])

/-- C9 witness: the recruiter identity, whose email differs from the
token recipient and whose role is not student, still redeems the token
addressed to Alice. -/
theorem claim9_witness :
    fxRecruiter.email ≠ fxToken.student_email
    ∧ strLower fxRecruiter.role ≠ "student"
    ∧ ((acceptInviteToken fxStore "tk" 10 fxRecruiter true).1
          = .alreadyLinkedMsg
      ∨ (acceptInviteToken fxStore "tk" 10 fxRecruiter true).1
          = .accepted fxAssessment.name fxAssessment.created_by_user_id) :=
  ⟨by decide, by decide,
   claim9_redeem_unbound_recipient fxStore "tk" 10 fxRecruiter fxToken
     fxAssessment (by decide) (by decide) (by decide) (by decide)⟩

/-- C10 (implicit): the AlreadyLinked precondition of link ignores the
assessment: whenever any Linkage row with the resolved recruiter exists
for the student — whatever its assessment_id and however it was created
— the link route fails with AlreadyLinked and leaves the store
unchanged, so no Linkage for the recruiter's other assessments is ever
created through the code path. -/
theorem claim10_already_linked_ignores_assessment (s : Store)
    (code : String) (u r : User) (ua0 : UserAssessment) (commitOk : Bool)
    (hrole : strLower u.role = "student")
    (hvc : validateRecruiterCode s code = some r)
    (hmem : ua0 ∈ s.user_assessments)
    (huid : ua0.user_id = u.id)
    (hrid : ua0.recruiter_id = some r.id) :
    linkStudentToRecruiterRoute s code u commitOk = (.alreadyLinked, s) := by
  cases hf : s.user_assessments.find? (fun ua =>
      ua.user_id == u.id && ua.recruiter_id == some r.id) with
  | none =>
    exfalso
    apply List.find?_eq_none.mp hf ua0 hmem
    simp [huid, hrid]
  | some ua => simp [linkStudentToRecruiterRoute, hrole, hvc, hf]

/-- C10 witness: the student redeems the invite for assessment 1 of a
recruiter who also owns assessment 3; the later link with the recruiter
code is rejected with AlreadyLinked and the store is unchanged, so no
Linkage for assessment 3 is created via the code path. -/
theorem claim10_witness :
    (acceptInviteToken fxTwoAssessStore "tk" 10 fxStudent true).1
        = .accepted "A1" 2
    ∧ linkStudentToRecruiterRoute fxAfterRedeemStore "ABC12345" fxStudent true
        = (.alreadyLinked, fxAfterRedeemStore) :=
  ⟨by decide,
   claim10_already_linked_ignores_assessment fxAfterRedeemStore "ABC12345"
     fxStudent fxRecruiter fxLinkedRow true (by decide) (by decide)
     (by decide) (by decide) (by decide)⟩

/-- C6 counterexample: when the recruiter owns no assessments, a first
successful link creates no Linkage rows, so the already-linked check
(which reads UserAssessment rows) finds nothing and a second call with
the same code succeeds again instead of failing with AlreadyLinked. -/
theorem claim6_counterexample :
    (linkStudentToRecruiterRoute fxNoAssessStore "ABC12345" fxStudent true).1
        = .success "Bob" 2 []
    ∧ (linkStudentToRecruiterRoute fxNoAssessStore1 "ABC12345" fxStudent true).1
        = .success "Bob" 2 []
    ∧ (linkStudentToRecruiterRoute fxNoAssessStore1 "ABC12345" fxStudent true).1
        ≠ .alreadyLinked := by
  refine ⟨by decide, by decide, by decide⟩

/-- C6 amended: whenever the student has no Linkage row with the
recruiter yet and the recruiter owns at least one assessment, the first
link succeeds and a second call with the same code fails with
AlreadyLinked and leaves the store unchanged (zero additional Linkage
rows); when the recruiter owns no assessments, the first link creates no
rows, so the second call succeeds again — it also creates zero rows. -/
theorem claim6_amended_second_link_rejected (s : Store) (code : String)
    (u r : User) (a : Assessment)
    (hrole : strLower u.role = "student")
    (hvc : validateRecruiterCode s code = some r)
    (hr : findUser s r.id = some r)
    (hu : findUser s u.id = some u)
    (ha : a ∈ s.assessments) (hca : a.created_by_user_id = r.id)
    (hnl : s.user_assessments.find? (fun ua =>
        ua.user_id == u.id && ua.recruiter_id == some r.id) = none) :
    ∃ s1,
      linkStudentToRecruiterRoute s code u true
        = (.success r.name r.id
            (getRecruiterAssessmentsForStudent s1 u.id r.id), s1)
      ∧ linkStudentToRecruiterRoute s1 code u true = (.alreadyLinked, s1) := by
  have hcode : ¬ code = "" := by
    intro hempty
    simp [validateRecruiterCode, hempty] at hvc
  have hfindr : s.users.find? (fun x =>
      x.recruiter_code == some code
        && (x.role == "Admin" || x.role == "Recruiter")) = some r := by
    simpa [validateRecruiterCode, hcode] using hvc
  have hpred := List.find?_some hfindr
  have hrrole : r.role = "Admin" ∨ r.role = "Recruiter" := by
    simp only [Bool.and_eq_true, Bool.or_eq_true, beq_iff_eq] at hpred
    exact hpred.2
  have hrole2 : strLower r.role = "admin" ∨ strLower r.role = "recruiter" := by
    rcases hrrole with h | h
    · left; rw [h]; decide
    · right; rw [h]; decide
  have hserv : linkStudentToRecruiterService s u.id r.id true
      = (true,
        { s with
            user_assessments := addAssessmentLinks s.user_assessments u r.id
              (s.assessments.filter (fun x => x.created_by_user_id == r.id)) }) := by
    simp [linkStudentToRecruiterService, hr, hu, hrole2]
  refine ⟨(linkStudentToRecruiterService s u.id r.id true).2, ?_, ?_⟩
  · rw [hserv]
    simp [linkStudentToRecruiterRoute, hrole, hvc, hnl, hserv]
  · rw [hserv]
    have hmm : a ∈ s.assessments.filter (fun x => x.created_by_user_id == r.id) := by
      rw [List.mem_filter]
      exact ⟨ha, by simp [hca]⟩
    rcases addAssessmentLinks_creates u r.id _ s.user_assessments a hmm with
      ⟨ua, hua_mem, hmatch⟩
    simp only [uaTripleMatch, Bool.and_eq_true, beq_iff_eq] at hmatch
    cases hf2 : (addAssessmentLinks s.user_assessments u r.id
        (s.assessments.filter (fun x => x.created_by_user_id == r.id))).find?
        (fun ua => ua.user_id == u.id && ua.recruiter_id == some r.id) with
    | none =>
      exfalso
      apply List.find?_eq_none.mp hf2 ua hua_mem
      simp [hmatch.1.1, hmatch.1.2]
    | some ua2 =>
      have hvc2 : validateRecruiterCode
          { s with
              user_assessments := addAssessmentLinks s.user_assessments u r.id
                (s.assessments.filter (fun x => x.created_by_user_id == r.id)) }
          code = some r := hvc
      simp [linkStudentToRecruiterRoute, hrole, hvc2, hf2]

/-- C6 amended witness at the base store, whose recruiter owns one
assessment. -/
theorem claim6_amended_witness :
    ∃ s1,
      linkStudentToRecruiterRoute fxStore "ABC12345" fxStudent true
        = (.success fxRecruiter.name fxRecruiter.id
            (getRecruiterAssessmentsForStudent s1 fxStudent.id fxRecruiter.id),
           s1)
      ∧ linkStudentToRecruiterRoute s1 "ABC12345" fxStudent true
          = (.alreadyLinked, s1) :=
  claim6_amended_second_link_rejected fxStore "ABC12345" fxStudent fxRecruiter
    fxAssessment (by decide) (by decide) (by decide) (by decide) (by decide)
    (by decide) (by decide)

/-- C7: on a successful link the service creates, in one commit, exactly
one Linkage (status INVITED, score NULL) for each assessment currently
owned by the recruiter for which the student has no existing Linkage
with the exact triple; and the creation is all-or-nothing — on a failed
commit the service reports failure and the store is unchanged. -/
theorem claim7_link_creates_exactly_missing (s : Store) (sid rid : Nat)
    (r student : User)
    (hr : findUser s rid = some r)
    (hrole : strLower r.role = "admin" ∨ strLower r.role = "recruiter")
    (hs : findUser s sid = some student)
    (hnodup : (s.assessments.map (fun a => a.id)).Nodup) :
    linkStudentToRecruiterService s sid rid true
      = (true,
        { s with
            user_assessments :=
              s.user_assessments ++ missingLinkRows s student rid })
    ∧ (∀ ua ∈ missingLinkRows s student rid,
        ua.status = .INVITED ∧ ua.score = none)
    ∧ linkStudentToRecruiterService s sid rid false = (false, s) := by
  have hfilter_nodup : ((s.assessments.filter
      (fun a => a.created_by_user_id == rid)).map (fun a => a.id)).Nodup :=
    List.Nodup.sublist (List.Sublist.map _ (List.filter_sublist _)) hnodup
  have hchar := addAssessmentLinks_characterization student rid
    (s.assessments.filter (fun a => a.created_by_user_id == rid))
    s.user_assessments [] hfilter_nodup (by intro e he b _; cases he)
  simp only [List.append_nil] at hchar
  refine ⟨?_, ?_, ?_⟩
  · simp [linkStudentToRecruiterService, hr, hs, hrole, hchar, missingLinkRows]
  · intro ua hua
    unfold missingLinkRows at hua
    rcases List.mem_map.mp hua with ⟨a, _, rfl⟩
    exact ⟨rfl, rfl⟩
  · simp [linkStudentToRecruiterService, hr, hs, hrole]

/-- C7 witness at the base store: the recruiter owns fxAssessment and
the student has no Linkage, so exactly that one INVITED row is created
on commit, and nothing on a failed commit. -/
theorem claim7_witness :
    linkStudentToRecruiterService fxStore 1 2 true
      = (true,
        { fxStore with
            user_assessments :=
              fxStore.user_assessments ++ missingLinkRows fxStore fxStudent 2 })
    ∧ (∀ ua ∈ missingLinkRows fxStore fxStudent 2,
        ua.status = .INVITED ∧ ua.score = none)
    ∧ linkStudentToRecruiterService fxStore 1 2 false = (false, fxStore) :=
  claim7_link_creates_exactly_missing fxStore 1 2 fxRecruiter fxStudent
    (by decide) (by decide) (by decide) (by decide)

end QuizApp
